import Mathlib

/-!
Verification of the GoPro stereo visual-odometry core against its
natural-language specification.

The development shallowly embeds the Python sources:
  - Classes/DualFrames.py   (stereo frame pair, matching, triangulation filter)
  - Classes/KalmanFilter.py (constant-velocity Kalman filter)
  - OfflineFiltering/Classes/Frame.py      (per-image frame data)
  - OfflineFiltering/Classes/Trajectory.py (trajectory integrator)
  - VisualOdometry.py       (motion-estimate validity, scale recovery)

Conventions of the embedding:
  - numpy float arrays are modelled with exact rationals; vectors and
    matrices use Lean functions over Fin n and Mathlib matrices;
  - external OpenCV calls (SIFT detection, knnMatch, triangulatePoints,
    calcOpticalFlowPyrLK, recoverPose, SVD) are modelled as inputs: their
    results are parameters of the embedded functions, which translate only
    the repository's own arithmetic on those results;
  - a comparison of a Euclidean norm with a positive constant c, written
    np.linalg.norm(v) < c in the source, is encoded by the equivalent
    comparison of the squared norm with c^2 so it stays in exact rational
    arithmetic; bridging lemmas relate this to the real square root;
  - numpy boolean-mask indexing arr[mask] is the function applyMask below.
-/

namespace GoPro

open Matrix (transpose)
open scoped Matrix

/-- A 2-D pixel coordinate (an OpenCV KeyPoint is modelled by its pt field). -/
abbrev Vec2 : Type := ℚ × ℚ

/-- A homogeneous 4-vector as produced by cv2.triangulatePoints (one row of
the transposed output array). -/
structure Vec4 where
  x : ℚ
  y : ℚ
  z : ℚ
  w : ℚ
deriving DecidableEq

/-- One cv2.DMatch: descriptor distance and the indices of the matched
keypoints in the query and train frames. -/
structure DMatch where
  distance : ℚ
  queryIdx : ℕ
  trainIdx : ℕ
deriving DecidableEq

/-- Frame (OfflineFiltering/Classes/Frame.py): keypoint coordinates, the
parallel descriptor list, and the valid subsets written by update_valid.
The image itself and the SIFT detector are external; features and
descriptor hold the detector's output. -/
structure Frame where
  features : List Vec2
  descriptor : List (List ℚ)
  valid_matches : List Vec2
  valid_features : List Vec2
  valid_descriptors : List (List ℚ)
deriving DecidableEq

/-- Frame.update_valid: store the valid subsets (lines 24-27 of Frame.py). -/
def Frame.update_valid (f : Frame) (vm : List Vec2) (vf : List Vec2)
    (vd : List (List ℚ)) : Frame :=
  { f with valid_matches := vm, valid_features := vf, valid_descriptors := vd }

/-- numpy boolean-mask indexing arr[mask]: keep the entries whose mask bit
is true, in order. -/
def applyMask {α : Type} : List Bool → List α → List α
  | true :: ks, a :: as => a :: applyMask ks as
  | false :: ks, _ :: as => applyMask ks as
  | _, _ => []

/-- Homogeneous normalization world_coordinates / world_coordinates[-1, :]
(DualFrames.py line 70). In rational arithmetic division by w = 0 yields 0;
such points are flagged out of range by inRange, mirroring the non-finite
values numpy produces there, which fail the norm < 80 test. -/
def homNormalize (v : Vec4) : Vec4 :=
  ⟨v.x / v.w, v.y / v.w, v.z / v.w, v.w / v.w⟩

/-- Squared Euclidean norm of one (4-component) row of the normalized
homogeneous point array, as taken by np.linalg.norm(..., axis=-1). -/
def normSq4 (v : Vec4) : ℚ :=
  v.x ^ 2 + v.y ^ 2 + v.z ^ 2 + v.w ^ 2

/-- The range filter norm < 80 of DualFrames.py lines 72-74, applied to the
normalized homogeneous row; encoded on squared norms (80^2 = 6400). -/
def inRange (v : Vec4) : Bool :=
  v.w ≠ 0 && normSq4 (homNormalize v) < 6400

/-- The matches surviving the Lowe ratio test m.distance < t * n.distance
(DualFrames.py lines 49-50). -/
def passedMatches (t : ℚ) (ms : List (DMatch × DMatch)) :
    List (DMatch × DMatch) :=
  ms.filter fun mn => decide (mn.1.distance < t * mn.2.distance)

/-- Left-side matched coordinates features[m.queryIdx].pt collected over the
passed matches (DualFrames.py line 51). Out-of-range indices, which would
raise in Python, default to the origin. -/
def leftPts (f : Frame) (ps : List (DMatch × DMatch)) : List Vec2 :=
  ps.map fun mn => f.features.getD mn.1.queryIdx (0, 0)

/-- Right-side matched coordinates features[m.trainIdx].pt (line 52). -/
def rightPts (f : Frame) (ps : List (DMatch × DMatch)) : List Vec2 :=
  ps.map fun mn => f.features.getD mn.1.trainIdx (0, 0)

/-- Left-side matched descriptors descriptor[m.queryIdx] (line 57). -/
def leftDescs (f : Frame) (ps : List (DMatch × DMatch)) : List (List ℚ) :=
  ps.map fun mn => f.descriptor.getD mn.1.queryIdx []

/-- Right-side matched descriptors descriptor[m.trainIdx] (line 58). -/
def rightDescs (f : Frame) (ps : List (DMatch × DMatch)) : List (List ℚ) :=
  ps.map fun mn => f.descriptor.getD mn.1.trainIdx []

/-- cv2.triangulatePoints applied to parallel coordinate lists: one
homogeneous point per matched pair. The solver itself is external; tri is
its per-pair result for the fixed projection matrices. -/
def triangulated (tri : Vec2 → Vec2 → Vec4) (ls rs : List Vec2) : List Vec4 :=
  (ls.zip rs).map fun lr => tri lr.1 lr.2

/-- The keep mask norm < 80 over the triangulated candidates
(DualFrames.py lines 72-74). -/
def keepMask (cands : List Vec4) : List Bool :=
  cands.map inRange

/-- DualFrames (Classes/DualFrames.py): the stereo frame pair with its
calibration. The sift and bf handles are external objects carrying no
state relevant to the claims and are omitted. -/
structure DualFrames where
  left_frame : Frame
  right_frame : Frame
  K : Matrix (Fin 3) (Fin 3) ℚ
  P_00 : Matrix (Fin 3) (Fin 4) ℚ
  P_10 : Matrix (Fin 3) (Fin 4) ℚ
  down_sample : ℚ
  world_coordinates : Option (List Vec4)

/-- The K rescaling of DualFrames.__init__ lines 28-29:
self.K *= 1 / down_sample followed by self.K[2][2] = 1. -/
def rescaleK (s : ℚ) (K : Matrix (Fin 3) (Fin 3) ℚ) :
    Matrix (Fin 3) (Fin 3) ℚ :=
  Matrix.of fun i j => if i = 2 ∧ j = 2 then 1 else 1 / s * K i j

/-- DualFrames.__init__ (lines 19-31): build the two frames from the
detector output, store calibration, rescale K, world_coordinates = None.
In the source, K is a numpy array passed by reference and the *= rescale
mutates it in place; the caller-visible consequences of that aliasing are
modelled explicitly at the call site (see visualOdometrySetupK). -/
def DualFrames.init (lf rf : Frame) (K : Matrix (Fin 3) (Fin 3) ℚ)
    (P_00 P_10 : Matrix (Fin 3) (Fin 4) ℚ) (down_sample : ℚ) : DualFrames :=
  { left_frame := lf
    right_frame := rf
    K := rescaleK down_sample K
    P_00 := P_00
    P_10 := P_10
    down_sample := down_sample
    world_coordinates := none }

/-- DualFrames.copy (lines 33-35): replace only the two frame references. -/
def DualFrames.copy (a b : DualFrames) : DualFrames :=
  { a with left_frame := b.left_frame, right_frame := b.right_frame }

/-- DualFrames.update_frames (lines 37-39): rebuild the two Frame objects
from new images; detection is external, so the fresh frames are inputs. -/
def DualFrames.update_frames (d : DualFrames) (lf rf : Frame) : DualFrames :=
  { d with left_frame := lf, right_frame := rf }

/-- In VisualOdometry.py lines 80-100 both DualFrames of one run are
constructed over the same numpy array calibration_data.K_cam1, and the
in-place *= of __init__ mutates that shared array: the K value both objects
end up aliasing after setup. -/
def visualOdometrySetupK (s : ℚ) (K0 : Matrix (Fin 3) (Fin 3) ℚ) :
    Matrix (Fin 3) (Fin 3) ℚ :=
  rescaleK s (rescaleK s K0)

/-- DualFrames.solve_stereo (lines 41-86). The knnMatch result and the
triangulation solver are external inputs; everything else is the source's
own list arithmetic: ratio test, collection of the six parallel arrays,
triangulation, homogeneous normalization, the norm < 80 keep mask applied
to every derived array, and update_valid on both frames. -/
def DualFrames.solve_stereo (d : DualFrames) (tri : Vec2 → Vec2 → Vec4)
    (ms : List (DMatch × DMatch)) (t : ℚ) : DualFrames :=
  let ps := passedMatches t ms
  let lm := leftPts d.left_frame ps
  let rm := rightPts d.right_frame ps
  let lds := leftDescs d.left_frame ps
  let rds := rightDescs d.right_frame ps
  let wc0 := triangulated tri lm rm
  let keep := keepMask wc0
  { d with
    world_coordinates := some (applyMask keep (wc0.map homNormalize))
    left_frame :=
      d.left_frame.update_valid (applyMask keep lm) (applyMask keep lm)
        (applyMask keep lds)
    right_frame :=
      d.right_frame.update_valid (applyMask keep rm) (applyMask keep rm)
        (applyMask keep rds) }

/-- The triangulated homogeneous candidates of one solve_stereo call,
before the range filter (DualFrames.py line 69). -/
def stereoCandidates (d : DualFrames) (tri : Vec2 → Vec2 → Vec4)
    (ms : List (DMatch × DMatch)) (t : ℚ) : List Vec4 :=
  triangulated tri (leftPts d.left_frame (passedMatches t ms))
    (rightPts d.right_frame (passedMatches t ms))

/-- The match pairs that survive both the ratio test and the range filter:
the common index set to which every output of solve_stereo is aligned. -/
def keptMatches (d : DualFrames) (tri : Vec2 → Vec2 → Vec4)
    (ms : List (DMatch × DMatch)) (t : ℚ) : List (DMatch × DMatch) :=
  applyMask (keepMask (stereoCandidates d tri ms t)) (passedMatches t ms)

/-- Insertion of one element into an already sorted list, ascending and
stable: the building block of the embedded Python sorted and np.sort. -/
def insertAsc {α : Type} [LinearOrder α] (x : α) : List α → List α
  | [] => [x]
  | y :: ys => if x ≤ y then x :: y :: ys else y :: insertAsc x ys

/-- Stable ascending sort (Python sorted / np.sort on 1-D arrays). -/
def sortAsc {α : Type} [LinearOrder α] (l : List α) : List α :=
  l.foldr insertAsc []

/-- np.median of a 1-D array: sort ascending, middle element for odd
length, average of the two middle elements for even length. numpy returns
nan on an empty input (the open question flagged by the spec); the
embedding returns the junk value 0 there, and no theorem below relies on
the empty case. -/
noncomputable def npMedian (l : List ℝ) : ℝ :=
  let s := sortAsc l
  if l.length % 2 = 1 then s.getD (l.length / 2) 0
  else (s.getD (l.length / 2 - 1) 0 + s.getD (l.length / 2) 0) / 2

/-- The validity flag of R_t_estimation, VisualOdometry.py lines 37-41:
sort the singular values of E ascending; valid unless the middle one is
below 100. The SVD itself is external, so the embedding takes the three
singular values (in the order numpy returns them). -/
def R_t_validity (s0 s1 s2 : ℚ) : Bool :=
  !decide ((sortAsc [s0, s1, s2]).getD 1 0 < 100)

/-- Median of three values by min and max: the specification's phrase
"the middle value of E's singular values sorted ascending", written
without reference to the sorting routine of the embedding. -/
def med3 (a b c : ℚ) : ℚ :=
  max (min a b) (min (max a b) c)

/-! ## Kalman filter (Classes/KalmanFilter.py) -/

/-- The constant-velocity transition matrix self.A with coupling dt
(KalmanFilter.py lines 10-17): ones on the diagonal, dt at the three
position-velocity coupling entries (0,3), (1,4), (2,5), zero elsewhere. -/
def Amat (dt : ℚ) : Matrix (Fin 6) (Fin 6) ℚ :=
  Matrix.of fun i j =>
    if i = j then 1
    else if (i = 0 ∧ j = 3) ∨ (i = 1 ∧ j = 4) ∨ (i = 2 ∧ j = 5) then dt
    else 0

/-- Process noise Q = 0.01 * eye(6) (line 18). -/
def Qmat : Matrix (Fin 6) (Fin 6) ℚ :=
  Matrix.of fun i j => if i = j then 1 / 100 else 0

/-- Measurement noise R = 0.001 * eye(3) (line 19). -/
def Rmat : Matrix (Fin 3) (Fin 3) ℚ :=
  Matrix.of fun i j => if i = j then 1 / 1000 else 0

/-- Measurement matrix H selecting the position sub-vector (lines 20-24):
the 3 x 6 matrix with ones at (0,0), (1,1), (2,2) and zero elsewhere. -/
def Hmat : Matrix (Fin 3) (Fin 6) ℚ :=
  Matrix.of fun i j => if j.val = i.val then 1 else 0

/-- The mutable state of KalmanFilter: state vector x, covariance P, and
the stored dt and transition matrix A, both rewritten by update_model. -/
structure KalmanFilter where
  x : Fin 6 → ℚ
  P : Matrix (Fin 6) (Fin 6) ℚ
  dt : ℚ
  A : Matrix (Fin 6) (Fin 6) ℚ

/-- KalmanFilter.__init__ (lines 5-24): zero state, identity covariance,
dt = 0.1 and the matching transition matrix. -/
def KalmanFilter.init : KalmanFilter :=
  { x := fun _ => 0, P := 1, dt := 1 / 10, A := Amat (1 / 10) }

/-- The in-place writes of update_model, lines 28-30: only the three
position-velocity coupling entries of the stored A are overwritten. -/
def setCoupling (dt : ℚ) (M : Matrix (Fin 6) (Fin 6) ℚ) :
    Matrix (Fin 6) (Fin 6) ℚ :=
  Matrix.of fun i j =>
    if (i = 0 ∧ j = 3) ∨ (i = 1 ∧ j = 4) ∨ (i = 2 ∧ j = 5) then dt else M i j

/-- KalmanFilter.update_model (lines 26-30). -/
def KalmanFilter.update_model (kf : KalmanFilter) (dt : ℚ) : KalmanFilter :=
  { kf with dt := dt, A := setCoupling dt kf.A }

/-- KalmanFilter.predict (lines 32-35): refresh A, then x = A x and
P = A P Aᵀ + Q. -/
def KalmanFilter.predict (kf : KalmanFilter) (dt : ℚ) : KalmanFilter :=
  let kf1 := kf.update_model dt
  { kf1 with x := kf1.A.mulVec kf1.x, P := kf1.A * kf1.P * (kf1.A)ᵀ + Qmat }

/-- np.linalg.inv on a 3x3 matrix, expressed by adjugate over determinant
(the unique inverse when det is nonzero; numpy raises on singular input,
which no claim exercises). -/
def inv3 (M : Matrix (Fin 3) (Fin 3) ℚ) : Matrix (Fin 3) (Fin 3) ℚ :=
  M.det⁻¹ • M.adjugate

/-- KalmanFilter.update (lines 37-42): the standard linear update with the
fixed H and R. -/
def KalmanFilter.update (kf : KalmanFilter) (z : Fin 3 → ℚ) : KalmanFilter :=
  let y := z - Hmat.mulVec kf.x
  let s := Hmat * kf.P * Hmatᵀ + Rmat
  let k := kf.P * Hmatᵀ * inv3 s
  { kf with x := kf.x + k.mulVec y, P := (1 - k * Hmat) * kf.P }

/-- The first three (position) components of the 6-dimensional state,
self.x[:3, :]. -/
def first3 (x : Fin 6 → ℚ) : Fin 3 → ℚ :=
  fun i => x ⟨i.val, by omega⟩

/-- KalmanFilter.process (lines 44-50): always predict, update only when
valid, return the position part of the state. -/
def KalmanFilter.process (kf : KalmanFilter) (dt : ℚ) (z : Fin 3 → ℚ)
    (valid : Bool) : (Fin 3 → ℚ) × KalmanFilter :=
  let kf1 := kf.predict dt
  let kf2 := if valid then kf1.update z else kf1
  (first3 kf2.x, kf2)

/-- Iterated predict(dt=1) from the initial filter, with no interleaved
update: the predict-only scenario of the specification. -/
def predictIter : ℕ → KalmanFilter
  | 0 => KalmanFilter.init
  | n + 1 => (predictIter n).predict 1

/-! ## Trajectory integrator (OfflineFiltering/Classes/Trajectory.py) -/

/-- np.mean(axis=0) over a list of 3-vectors: componentwise sum divided by
the length. -/
def vmean (l : List (Fin 3 → ℚ)) : Fin 3 → ℚ :=
  fun i => (l.map fun v => v i).sum / l.length

/-- Line 26 of Trajectory.update: the instantaneous velocity
3.6 * (self.trajectory[-1] - self.trajectory[-2]) / dt, with 3.6 written
as the exact rational 18/5. -/
def instVel (trajectory : List (Fin 3 → ℚ)) (dt : ℚ) : Fin 3 → ℚ :=
  fun i => 18 / 5 *
    (trajectory.getD (trajectory.length - 1) (fun _ => 0) i -
      trajectory.getD (trajectory.length - 2) (fun _ => 0) i) / dt

/-- Lines 26-31 of Trajectory.update, operating on the position history and
velocity history: the instantaneous velocity is appended, then the last
entry is overwritten with the mean of the trailing window of at most w
entries (start index max(0, len - w), via truncated subtraction). -/
def velocityUpdate (trajectory velocity : List (Fin 3 → ℚ)) (dt : ℚ)
    (w : ℕ) : List (Fin 3 → ℚ) :=
  let vel1 := velocity ++ [instVel trajectory dt]
  let fv := vmean (vel1.drop (vel1.length - w))
  vel1.take (vel1.length - 1) ++ [fv]

/-- Trajectory (OfflineFiltering/Classes/Trajectory.py): global pose,
filtered position history (seeded with the origin), velocity history, the
owned Kalman filter, and the smoothing window size. -/
structure Trajectory where
  filter_window_size : ℕ
  R : Matrix (Fin 3) (Fin 3) ℚ
  t : Fin 3 → ℚ
  trajectory : List (Fin 3 → ℚ)
  velocity : List (Fin 3 → ℚ)
  KF : KalmanFilter

/-- Trajectory.__init__ (lines 8-17) with the default window size 5. -/
def Trajectory.init : Trajectory :=
  { filter_window_size := 5
    R := 1
    t := fun _ => 0
    trajectory := [fun _ => 0]
    velocity := []
    KF := KalmanFilter.init }

/-- Trajectory.update (lines 19-31): compose the global pose, run the
Kalman filter, append the filtered position, and run the velocity
smoothing step. -/
def Trajectory.update (tr : Trajectory) (R : Matrix (Fin 3) (Fin 3) ℚ)
    (t : Fin 3 → ℚ) (dt s : ℚ) (valid : Bool) : Trajectory :=
  let t' := tr.t + tr.R.mulVec (s • t)
  let R' := tr.R * R
  let pr := tr.KF.process dt t' valid
  let traj' := tr.trajectory ++ [pr.1]
  { tr with
    t := t'
    R := R'
    KF := pr.2
    trajectory := traj'
    velocity := velocityUpdate traj' tr.velocity dt tr.filter_window_size }

/-! ## Scale recovery (VisualOdometry.py lines 126-162) -/

/-- Lines 145-156: keep the tracked points whose optical-flow status is 1
on both sides, re-triangulate them in the current pair, normalize, apply
the norm < 80 range mask, and restrict the previous 3-D points by the same
masks. Optical flow itself is external: its output points and status
vectors are inputs. Result: the list of (current, previous) 3-D point
pairs that survive both masks. -/
def trackedPairs (tri : Vec2 → Vec2 → Vec4) (prevWorld : List Vec4)
    (lNext rNext : List Vec2) (lStat rStat : List Bool) :
    List (Vec4 × Vec4) :=
  let status := List.zipWith and lStat rStat
  let wc0 := triangulated tri (applyMask status lNext) (applyMask status rNext)
  let keep := keepMask wc0
  (applyMask keep (wc0.map homNormalize)).zip
    (applyMask keep (applyMask status prevWorld))

/-- The squared planar (x, z) displacement of one surviving point between
the previous and current 3-D positions (lines 158-159 before the norm). -/
def planarDispSq (cp : Vec4 × Vec4) : ℚ :=
  (cp.1.x - cp.2.x) ^ 2 + (cp.1.z - cp.2.z) ^ 2

/-- The squared per-point planar displacements of the surviving points. -/
def dispSqs (tri : Vec2 → Vec2 → Vec4) (prevWorld : List Vec4)
    (lNext rNext : List Vec2) (lStat rStat : List Bool) : List ℚ :=
  (trackedPairs tri prevWorld lNext rNext lStat rStat).map planarDispSq

/-- The per-point planar displacements d of line 159: the Euclidean norms
of the (x, z) displacement rows. -/
noncomputable def disps (tri : Vec2 → Vec2 → Vec4) (prevWorld : List Vec4)
    (lNext rNext : List Vec2) (lStat rStat : List Bool) : List ℝ :=
  (dispSqs tri prevWorld lNext rNext lStat rStat).map
    fun (s : ℚ) => Real.sqrt (s : ℝ)

/-- Lines 160-162: d = d[d < max_velocity * 0.1] with max_velocity = 50
(the threshold is the constant 5, the frame dt is not used), then
scale = np.median(d). -/
noncomputable def scaleEstimate (tri : Vec2 → Vec2 → Vec4)
    (prevWorld : List Vec4) (lNext rNext : List Vec2)
    (lStat rStat : List Bool) : ℝ :=
  npMedian ((disps tri prevWorld lNext rNext lStat rStat).filter
    fun d => decide (d < 50 * (1 / 10 : ℝ)))

/-- The displacement filter as the claim states it: discard displacements
not below 50 distance units per second times the frame's dt. Stated from
the specification's words, for comparison with the source's fixed
threshold. -/
noncomputable def specVelocityFilter (dt : ℚ) (ds : List ℝ) : List ℝ :=
  ds.filter fun d => decide (d < 50 * (dt : ℝ))

/-! ## Concrete instances and scenario definitions used by the theorems -/

/-- A concrete intrinsic matrix for the counterexample. -/
def K0c : Matrix (Fin 3) (Fin 3) ℚ := !![4, 0, 0; 0, 4, 0; 0, 0, 1]

/-- A frame with one keypoint, used by the concrete stereo scenarios. -/
def frame1 : Frame :=
  { features := [(0, 0)], descriptor := [[1]], valid_matches := []
    valid_features := [], valid_descriptors := [] }

/-- A match list whose only pair fails the Lowe ratio test
(10 < 0.75 * 10 is false). -/
def noPassMatches : List (DMatch × DMatch) :=
  [(⟨10, 0, 0⟩, ⟨10, 0, 0⟩)]

/-- A stereo pair over frame1 with trivial calibration. -/
def dfC3 : DualFrames := DualFrames.init frame1 frame1 1 0 0 1

/-- A triangulation oracle (irrelevant here: it is never consulted on an
empty pair list). -/
def triC3 : Vec2 → Vec2 → Vec4 := fun _ _ => ⟨0, 0, 0, 1⟩

/-- The claim's filter as stated: keep a candidate when its Euclidean norm
as a 3-D point (ignoring the homogeneous component) is below 80. Stated
from the specification's words for comparison with the source filter. -/
noncomputable def spec3DInRange (v : Vec4) : Bool :=
  decide (Real.sqrt (((v.x : ℝ)) ^ 2 + ((v.y : ℝ)) ^ 2 + ((v.z : ℝ)) ^ 2)
    < 80)

/-- Four matches that all pass the ratio test (1 < 0.75 * 2). -/
def passMatches4 : List (DMatch × DMatch) :=
  [(⟨1, 0, 0⟩, ⟨2, 0, 0⟩), (⟨1, 1, 1⟩, ⟨2, 1, 1⟩),
   (⟨1, 2, 2⟩, ⟨2, 2, 2⟩), (⟨1, 3, 3⟩, ⟨2, 3, 3⟩)]

/-- A frame with four keypoints. -/
def frame4 : Frame :=
  { features := [(0, 0), (1, 0), (2, 0), (3, 0)]
    descriptor := [[0], [1], [2], [3]], valid_matches := []
    valid_features := [], valid_descriptors := [] }

/-- A stereo pair over frame4. -/
def dfC5 : DualFrames := DualFrames.init frame4 frame4 1 0 0 1

/-- A triangulation oracle yielding points with 3-D norms 5, 50, 90, 120
for the four matched pairs. -/
def triC5 : Vec2 → Vec2 → Vec4 := fun l _ =>
  if l = ((0 : ℚ), (0 : ℚ)) then ⟨5, 0, 0, 1⟩
  else if l = ((1 : ℚ), (0 : ℚ)) then ⟨0, 50, 0, 1⟩
  else if l = ((2 : ℚ), (0 : ℚ)) then ⟨0, 0, 90, 1⟩
  else ⟨120, 0, 0, 1⟩

/-- The concrete out-of-range witness point: its 3-D norm 79.995 is below
80, but the norm of its normalized homogeneous row is not. -/
def triC5x : Vec2 → Vec2 → Vec4 := fun _ _ => ⟨15999 / 200, 0, 0, 1⟩

/-- One match passing the ratio test. -/
def passMatches1 : List (DMatch × DMatch) := [(⟨1, 0, 0⟩, ⟨2, 0, 0⟩)]

/-- The symmetric block form taken by the covariance during predict-only
iteration: a on the position diagonal, c on the velocity diagonal, b at
the six position-velocity coupling entries. -/
def bf (a b c : ℚ) : Matrix (Fin 6) (Fin 6) ℚ :=
  Matrix.of fun i j =>
    if i = j then (if i = 0 ∨ i = 1 ∨ i = 2 then a else c)
    else if (i = 0 ∧ j = 3) ∨ (i = 1 ∧ j = 4) ∨ (i = 2 ∧ j = 5) ∨
      (i = 3 ∧ j = 0) ∨ (i = 4 ∧ j = 1) ∨ (i = 5 ∧ j = 2) then b
    else 0

/-- The claim's noise-free scenario: a filtered position history that
starts at the origin and increases by a fixed step every frame. The list
holds positions 0, step, 2*step, ..., m*step. -/
def arithTraj (step : Fin 3 → ℚ) (m : ℕ) : List (Fin 3 → ℚ) :=
  (List.range (m + 1)).map fun (k : ℕ) => fun i => (k : ℚ) * step i

/-- The velocity history produced by n velocity-smoothing steps over the
arithmetic position history at dt = 0.1 with the default window 5. -/
def velIter (step : Fin 3 → ℚ) : ℕ → List (Fin 3 → ℚ)
  | 0 => []
  | n + 1 => velocityUpdate (arithTraj step (n + 1)) (velIter step n)
      (1 / 10) 5

/-- Concrete scale-recovery input for the counterexample: two tracked
points, both passing status and range masks, with planar displacements
3 and 7. -/
def triC1 : Vec2 → Vec2 → Vec4 := fun l _ =>
  if l = ((0 : ℚ), (0 : ℚ)) then ⟨3, 0, 0, 1⟩ else ⟨7, 0, 0, 1⟩

/-- The previous 3-D points of the two tracked correspondences. -/
def prevWC1 : List Vec4 := [⟨0, 0, 0, 1⟩, ⟨0, 0, 0, 1⟩]

/-- The tracked current 2-D locations of the two correspondences. -/
def nextC1 : List Vec2 := [(0, 0), (1, 1)]

/-! ## Helper lemmas on masks and sorting -/

lemma applyMask_map {α β : Type} (f : α → β) :
    ∀ (ks : List Bool) (l : List α),
      applyMask ks (l.map f) = (applyMask ks l).map f := by
  intro ks
  induction ks with
  | nil => intro l; cases l <;> rfl
  | cons k ks ih =>
    intro l
    cases l with
    | nil => cases k <;> rfl
    | cons a as => cases k <;> simp [applyMask, ih]

lemma applyMask_map_self {α β : Type} (p : α → Bool) (f : α → β) :
    ∀ l : List α, applyMask (l.map p) (l.map f) = (l.filter p).map f := by
  intro l
  induction l with
  | nil => rfl
  | cons a as ih =>
    by_cases h : p a = true
    · simp [applyMask, List.filter_cons, h, ih]
    · rw [Bool.not_eq_true] at h
      simp [applyMask, List.filter_cons, h, ih]

lemma applyMask_self {α : Type} (p : α → Bool) (l : List α) :
    applyMask (l.map p) l = l.filter p := by
  have h := applyMask_map_self p (fun a => a) l
  simpa using h

lemma zip_map_same {α β γ : Type} (f : α → β) (g : α → γ) (l : List α) :
    (l.map f).zip (l.map g) = l.map fun a => (f a, g a) := by
  induction l with
  | nil => rfl
  | cons a as ih => simp [ih]

lemma triangulated_map {α : Type} (tri : Vec2 → Vec2 → Vec4)
    (f g : α → Vec2) (l : List α) :
    triangulated tri (l.map f) (l.map g) = l.map fun a => tri (f a) (g a) := by
  simp [triangulated, zip_map_same]

lemma applyMask_nil {α : Type} (ks : List Bool) :
    applyMask ks ([] : List α) = [] := by
  cases ks with
  | nil => rfl
  | cons k ks => cases k <;> rfl

/-- The world coordinates produced by solve_stereo are the in-range
candidates, normalized, in their original order. -/
lemma solve_stereo_world (d : DualFrames) (tri : Vec2 → Vec2 → Vec4)
    (ms : List (DMatch × DMatch)) (t : ℚ) :
    (d.solve_stereo tri ms t).world_coordinates =
      some (((stereoCandidates d tri ms t).filter inRange).map
        homNormalize) := by
  show (some (applyMask (keepMask (stereoCandidates d tri ms t))
    ((stereoCandidates d tri ms t).map homNormalize)) : Option (List Vec4))
    = _
  rw [keepMask, applyMask_map_self]

lemma sortAsc3_middle (a b c : ℚ) :
    (sortAsc [a, b, c]).getD 1 0 = med3 a b c := by
  simp only [sortAsc, List.foldr, insertAsc]
  split_ifs <;>
    (simp only [insertAsc]
     split_ifs <;>
       (simp only [List.getD_cons_succ, List.getD_cons_zero, med3, min_def,
         max_def]
        split_ifs <;> linarith))

/-! ## Claim C10: frame effect of DualFrames.copy -/

/-- C10: for every pair of DualFrames a and b, a.copy(b) replaces only the
left-frame and right-frame references with b's frames and leaves the
intrinsic matrix K, both projection matrices, the downsample factor, and
the previously triangulated world coordinates of a unchanged. -/
theorem copy_replaces_only_frames (a b : DualFrames) :
    (a.copy b).left_frame = b.left_frame ∧
    (a.copy b).right_frame = b.right_frame ∧
    (a.copy b).K = a.K ∧
    (a.copy b).P_00 = a.P_00 ∧
    (a.copy b).P_10 = a.P_10 ∧
    (a.copy b).down_sample = a.down_sample ∧
    (a.copy b).world_coordinates = a.world_coordinates :=
  ⟨rfl, rfl, rfl, rfl, rfl, rfl, rfl⟩

/-! ## Claim C4: degenerate-motion validity flag -/

/-- C4: the validity flag of R_t_estimation is false exactly when the
middle singular value of E (the median of the three values, sorted
ascending) is below 100; singular values (150, 80, 0) give validity false
and (150, 150, 0) give validity true. The computation is total, so no
exception arises on degeneracy. -/
theorem validity_iff_middle_singular_value (s0 s1 s2 : ℚ) :
    (R_t_validity s0 s1 s2 = false ↔ med3 s0 s1 s2 < 100) ∧
    R_t_validity 150 80 0 = false ∧
    R_t_validity 150 150 0 = true := by
  refine ⟨?_, by decide, by decide⟩
  unfold R_t_validity
  rw [sortAsc3_middle]
  simp

/-! ## Claim C2: the K rescale invariant -/

/-- C2 as stated is false: constructing the two DualFrames of one
trajectory run over the same calibration does not leave each one's K equal
to the original rescaled by 1/s exactly once. At downsample factor 2 and
the concrete K0c, the in-place rescale of the shared array runs twice, and
the resulting K differs from rescaleK 2 K0c (entry (0,0) is 1, not 2). -/
theorem rescale_applied_twice_counterexample :
    visualOdometrySetupK 2 K0c ≠ rescaleK 2 K0c := by
  intro h
  have h00 := congrArg (fun M : Matrix (Fin 3) (Fin 3) ℚ => M 0 0) h
  simp [visualOdometrySetupK, rescaleK, K0c] at h00

/-- C2 amended: each DualFrames construction rescales its K argument by
1/s with entry (2,2) forced to 1, and neither update_frames nor copy
reapplies the rescale; but because the two DualFrames of one run are
constructed over the same numpy array, mutated in place, after setup the
shared K equals the original rescaled twice; with the run's actual
down_sample = 1 the second application coincides with a single one. -/
theorem rescale_once_per_construction (s : ℚ)
    (K0 : Matrix (Fin 3) (Fin 3) ℚ) (lf rf : Frame)
    (P0 : Matrix (Fin 3) (Fin 4) ℚ) (P1 : Matrix (Fin 3) (Fin 4) ℚ) :
    (DualFrames.init lf rf K0 P0 P1 s).K = rescaleK s K0 ∧
    (∀ (d : DualFrames) (lf' rf' : Frame),
      (d.update_frames lf' rf').K = d.K) ∧
    (∀ a b : DualFrames, (a.copy b).K = a.K) ∧
    visualOdometrySetupK s K0 = rescaleK s (rescaleK s K0) ∧
    rescaleK 1 (rescaleK 1 K0) = rescaleK 1 K0 := by
  refine ⟨rfl, fun d lf' rf' => rfl, fun a b => rfl, rfl, ?_⟩
  ext i j
  by_cases h : i = 2 ∧ j = 2 <;> simp [rescaleK, h]

/-! ## Claim C9: index alignment of the valid containers -/

/-- C9: after solve_stereo, all three left valid containers, all three
right valid containers, and the triangulated world coordinates are maps
over one common list of kept correspondences (keptMatches), so they all
have equal length and index i of every container refers to the same
matched correspondence. -/
theorem stereo_valid_sets_aligned (d : DualFrames)
    (tri : Vec2 → Vec2 → Vec4) (ms : List (DMatch × DMatch)) (t : ℚ) :
    ((d.solve_stereo tri ms t).left_frame.valid_matches =
      (keptMatches d tri ms t).map fun mn =>
        d.left_frame.features.getD mn.1.queryIdx (0, 0)) ∧
    ((d.solve_stereo tri ms t).left_frame.valid_features =
      (keptMatches d tri ms t).map fun mn =>
        d.left_frame.features.getD mn.1.queryIdx (0, 0)) ∧
    ((d.solve_stereo tri ms t).left_frame.valid_descriptors =
      (keptMatches d tri ms t).map fun mn =>
        d.left_frame.descriptor.getD mn.1.queryIdx []) ∧
    ((d.solve_stereo tri ms t).right_frame.valid_matches =
      (keptMatches d tri ms t).map fun mn =>
        d.right_frame.features.getD mn.1.trainIdx (0, 0)) ∧
    ((d.solve_stereo tri ms t).right_frame.valid_features =
      (keptMatches d tri ms t).map fun mn =>
        d.right_frame.features.getD mn.1.trainIdx (0, 0)) ∧
    ((d.solve_stereo tri ms t).right_frame.valid_descriptors =
      (keptMatches d tri ms t).map fun mn =>
        d.right_frame.descriptor.getD mn.1.trainIdx []) ∧
    ((d.solve_stereo tri ms t).world_coordinates =
      some ((keptMatches d tri ms t).map fun mn =>
        homNormalize (tri (d.left_frame.features.getD mn.1.queryIdx (0, 0))
          (d.right_frame.features.getD mn.1.trainIdx (0, 0))))) ∧
    (d.solve_stereo tri ms t).left_frame.valid_matches.length =
      (keptMatches d tri ms t).length ∧
    (d.solve_stereo tri ms t).left_frame.valid_features.length =
      (keptMatches d tri ms t).length ∧
    (d.solve_stereo tri ms t).left_frame.valid_descriptors.length =
      (keptMatches d tri ms t).length ∧
    (d.solve_stereo tri ms t).right_frame.valid_matches.length =
      (keptMatches d tri ms t).length ∧
    (d.solve_stereo tri ms t).right_frame.valid_features.length =
      (keptMatches d tri ms t).length ∧
    (d.solve_stereo tri ms t).right_frame.valid_descriptors.length =
      (keptMatches d tri ms t).length ∧
    ((d.solve_stereo tri ms t).world_coordinates.getD []).length =
      (keptMatches d tri ms t).length := by
  simp only [DualFrames.solve_stereo, keptMatches, stereoCandidates,
    Frame.update_valid, leftPts, rightPts, leftDescs, rightDescs, keepMask,
    triangulated_map, List.map_map]
  simp only [Function.comp_def, applyMask_map_self, applyMask_self,
    List.map_map, List.length_map, Option.getD_some]
  exact ⟨trivial, trivial, trivial, trivial, trivial, trivial, trivial,
    trivial, trivial, trivial, trivial, trivial, trivial, trivial⟩

/-! ## Claim C3: zero matches passing the ratio test -/

/-- C3, the behavior the specification mandates, at a concrete input where
no match passes the ratio test: the embedded solve_stereo completes and
every derived array (valid matches, features, descriptors on both sides,
and the triangulated world coordinates) is empty. The Python source
diverges from this at the same input: with zero passing matches the
collected arrays are 1-D empty numpy arrays, so cv2.triangulatePoints
receives (0,)-shaped inputs and left_valid_matches[:, mask] raises
IndexError, instead of propagating empty arrays. -/
theorem zero_matches_all_arrays_empty :
    ((dfC3.solve_stereo triC3 noPassMatches (3 / 4)).left_frame.valid_matches
      = []) ∧
    ((dfC3.solve_stereo triC3 noPassMatches (3 / 4)).left_frame.valid_features
      = []) ∧
    ((dfC3.solve_stereo triC3 noPassMatches
      (3 / 4)).left_frame.valid_descriptors = []) ∧
    ((dfC3.solve_stereo triC3 noPassMatches (3 / 4)).right_frame.valid_matches
      = []) ∧
    ((dfC3.solve_stereo triC3 noPassMatches
      (3 / 4)).right_frame.valid_features = []) ∧
    ((dfC3.solve_stereo triC3 noPassMatches
      (3 / 4)).right_frame.valid_descriptors = []) ∧
    ((dfC3.solve_stereo triC3 noPassMatches (3 / 4)).world_coordinates
      = some []) := by
  have hps : passedMatches (3 / 4) noPassMatches = [] := by
    norm_num [passedMatches, noPassMatches]
  refine ⟨?_, ?_, ?_, ?_, ?_, ?_, ?_⟩ <;>
    simp [DualFrames.solve_stereo, Frame.update_valid, hps, leftPts,
      rightPts, leftDescs, rightDescs, triangulated, keepMask, applyMask_nil]

/-! ## Claim C5: the implausible-depth filter -/

/-- C5 amended: the filter keeps exactly the candidates whose normalized
homogeneous 4-vector — including its unit last component — has Euclidean
norm below 80 (so a 3-D norm below √6399 ≈ 79.994, not below 80), with a
zero homogeneous coordinate treated as out of range; order is preserved
and the identical keep-mask is applied to every derived per-side array.
For candidate points of 3-D norms [5, 50, 90, 120] the survivors are
exactly the first two, in original order. -/
theorem range_filter_on_homogeneous_norm (d : DualFrames)
    (tri : Vec2 → Vec2 → Vec4) (ms : List (DMatch × DMatch)) (t : ℚ) :
    ((d.solve_stereo tri ms t).world_coordinates =
      some (((stereoCandidates d tri ms t).filter inRange).map
        homNormalize)) ∧
    ((d.solve_stereo tri ms t).left_frame.valid_matches =
      applyMask (keepMask (stereoCandidates d tri ms t))
        (leftPts d.left_frame (passedMatches t ms))) ∧
    ((d.solve_stereo tri ms t).left_frame.valid_features =
      applyMask (keepMask (stereoCandidates d tri ms t))
        (leftPts d.left_frame (passedMatches t ms))) ∧
    ((d.solve_stereo tri ms t).left_frame.valid_descriptors =
      applyMask (keepMask (stereoCandidates d tri ms t))
        (leftDescs d.left_frame (passedMatches t ms))) ∧
    ((d.solve_stereo tri ms t).right_frame.valid_matches =
      applyMask (keepMask (stereoCandidates d tri ms t))
        (rightPts d.right_frame (passedMatches t ms))) ∧
    ((d.solve_stereo tri ms t).right_frame.valid_features =
      applyMask (keepMask (stereoCandidates d tri ms t))
        (rightPts d.right_frame (passedMatches t ms))) ∧
    ((d.solve_stereo tri ms t).right_frame.valid_descriptors =
      applyMask (keepMask (stereoCandidates d tri ms t))
        (rightDescs d.right_frame (passedMatches t ms))) ∧
    (∀ v : Vec4, inRange v = true ↔
      v.w ≠ 0 ∧ Real.sqrt ((normSq4 (homNormalize v) : ℚ)) < 80) ∧
    ((dfC5.solve_stereo triC5 passMatches4 (3 / 4)).world_coordinates =
      some [⟨5, 0, 0, 1⟩, ⟨0, 50, 0, 1⟩]) := by
  refine ⟨solve_stereo_world d tri ms t, rfl, rfl, rfl, rfl, rfl, rfl, ?_,
    ?_⟩
  · intro v
    constructor
    · intro h
      rw [inRange, Bool.and_eq_true, decide_eq_true_eq, decide_eq_true_eq]
        at h
      refine ⟨h.1, ?_⟩
      rw [Real.sqrt_lt' (by norm_num)]
      exact_mod_cast (by exact_mod_cast h.2 :
        ((normSq4 (homNormalize v) : ℚ) : ℝ) < 6400)
    · intro ⟨h1, h2⟩
      rw [inRange, Bool.and_eq_true, decide_eq_true_eq, decide_eq_true_eq]
      refine ⟨h1, ?_⟩
      rw [Real.sqrt_lt' (by norm_num)] at h2
      exact_mod_cast h2
  · have h1 : passedMatches (3 / 4) passMatches4 = passMatches4 := by
      norm_num [passedMatches, passMatches4]
    have h2 : stereoCandidates dfC5 triC5 passMatches4 (3 / 4) =
        [⟨5, 0, 0, 1⟩, ⟨0, 50, 0, 1⟩, ⟨0, 0, 90, 1⟩, ⟨120, 0, 0, 1⟩] := by
      rw [stereoCandidates, h1]
      norm_num [leftPts, rightPts, dfC5, DualFrames.init, frame4,
        passMatches4, triangulated, triC5]
    rw [solve_stereo_world, h2]
    norm_num [List.filter_cons, inRange, homNormalize, normSq4]

/-- C5 as stated is false: solve_stereo does not keep exactly the points
whose Euclidean norm as a 3-D point is below 80. At the concrete candidate
(79.995, 0, 0), whose 3-D norm is below 80, the source filter — which
takes np.linalg.norm over the normalized homogeneous row, including its
trailing 1 — drops the point, so the produced world coordinates are empty
while the claim's filter keeps the point. -/
theorem range_filter_counterexample :
    ¬ ((dfC3.solve_stereo triC5x passMatches1 (3 / 4)).world_coordinates =
      some (((stereoCandidates dfC3 triC5x passMatches1 (3 / 4)).filter
        spec3DInRange).map homNormalize)) := by
  intro h
  have hc : stereoCandidates dfC3 triC5x passMatches1 (3 / 4) =
      [⟨15999 / 200, 0, 0, 1⟩] := by
    norm_num [stereoCandidates, passedMatches, passMatches1, leftPts,
      rightPts, dfC3, DualFrames.init, frame1, triangulated, triC5x]
  have hs : spec3DInRange ⟨15999 / 200, 0, 0, 1⟩ = true := by
    rw [spec3DInRange, decide_eq_true_eq]
    rw [Real.sqrt_lt' (by norm_num)]
    push_cast
    norm_num
  have hw : (dfC3.solve_stereo triC5x passMatches1
      (3 / 4)).world_coordinates = some [] := by
    rw [solve_stereo_world, hc]
    norm_num [List.filter_cons, inRange, homNormalize, normSq4]
  rw [hw, hc, List.filter_cons, hs] at h
  simp [homNormalize] at h

/-! ## Claim C6: predict always, update only when valid -/

/-- C6: in every trajectory step the Kalman predict runs unconditionally
and the measurement update with z = t_global runs exactly when the step's
validity flag is true — an invalid step is a predict-only step of the
total (never-aborting) update function — and the position appended to the
history is the first 3 components of the resulting filter state. -/
theorem predict_always_update_iff_valid (tr : Trajectory)
    (R : Matrix (Fin 3) (Fin 3) ℚ) (t : Fin 3 → ℚ) (dt s : ℚ) :
    ((tr.update R t dt s true).KF =
      (tr.KF.predict dt).update (tr.t + tr.R.mulVec (s • t))) ∧
    ((tr.update R t dt s false).KF = tr.KF.predict dt) ∧
    (∀ valid : Bool, (tr.update R t dt s valid).trajectory =
      tr.trajectory ++ [first3 ((tr.update R t dt s valid).KF.x)]) := by
  refine ⟨rfl, rfl, fun valid => ?_⟩
  cases valid <;> rfl

/-! ## Claim C7: predict-only stability -/

lemma Abf (a b c : ℚ) :
    Amat 1 * bf a b c * (Amat 1)ᵀ + Qmat =
      bf (a + 2 * b + c + 1 / 100) (b + c) (c + 1 / 100) := by
  ext i j
  fin_cases i <;> fin_cases j <;>
    (simp [Amat, bf, Qmat, Matrix.mul_apply, Fin.sum_univ_six,
      Matrix.transpose_apply, Matrix.add_apply]
     try ring)

lemma trace_bf (a b c : ℚ) : (bf a b c).trace = 3 * a + 3 * c := by
  simp [Matrix.trace, Fin.sum_univ_six, bf, Matrix.diag]
  ring

lemma one_eq_bf : (1 : Matrix (Fin 6) (Fin 6) ℚ) = bf 1 0 1 := by
  ext i j
  fin_cases i <;> fin_cases j <;> simp [bf, Matrix.one_apply]

lemma setCoupling_Amat (dt d' : ℚ) : setCoupling dt (Amat d') = Amat dt := by
  ext i j
  fin_cases i <;> fin_cases j <;> simp [setCoupling, Amat]

/-- The predict-only loop invariant: the state stays zero, the stored A
keeps the Amat shape, and the covariance keeps the bf block form with
nonnegative coupling and velocity variance at least 1. -/
lemma predictIter_invariant (n : ℕ) :
    (predictIter n).x = (fun _ => 0) ∧
    (∃ d', (predictIter n).A = Amat d') ∧
    ∃ a b c, (predictIter n).P = bf a b c ∧ 0 ≤ b ∧ 1 ≤ c := by
  induction n with
  | zero =>
    exact ⟨rfl, ⟨1 / 10, rfl⟩, 1, 0, 1, one_eq_bf, le_refl 0, le_refl 1⟩
  | succ n ih =>
    obtain ⟨hx, ⟨d', hA⟩, a, b, c, hP, hb, hc⟩ := ih
    refine ⟨?_, ⟨1, ?_⟩, a + 2 * b + c + 1 / 100, b + c, c + 1 / 100,
      ?_, by linarith, by linarith⟩
    · show (setCoupling 1 (predictIter n).A).mulVec (predictIter n).x =
        fun _ => 0
      rw [hx, hA, setCoupling_Amat]
      exact Matrix.mulVec_zero _
    · show setCoupling 1 (predictIter n).A = Amat 1
      rw [hA, setCoupling_Amat]
    · show setCoupling 1 (predictIter n).A * (predictIter n).P *
        (setCoupling 1 (predictIter n).A)ᵀ + Qmat = _
      rw [hA, setCoupling_Amat, hP, Abf]

/-- C7: starting from the zero state and identity covariance, every finite
sequence of predict(dt=1) calls keeps the three position components of the
state at zero, the trace of the covariance strictly increases at every
call, and each call computes x as A x and P as A P Aᵀ + Q with A the
transition matrix whose coupling entries were set to dt = 1. -/
theorem kalman_predict_only_stability (n : ℕ) :
    (predictIter n).x 0 = 0 ∧
    (predictIter n).x 1 = 0 ∧
    (predictIter n).x 2 = 0 ∧
    (predictIter n).P.trace < (predictIter (n + 1)).P.trace ∧
    (predictIter (n + 1)).x = (Amat 1).mulVec ((predictIter n).x) ∧
    (predictIter (n + 1)).P =
      Amat 1 * (predictIter n).P * (Amat 1)ᵀ + Qmat := by
  obtain ⟨hx, ⟨d', hA⟩, a, b, c, hP, hb, hc⟩ := predictIter_invariant n
  have hstep : (predictIter (n + 1)).P =
      Amat 1 * (predictIter n).P * (Amat 1)ᵀ + Qmat := by
    show setCoupling 1 (predictIter n).A * (predictIter n).P *
      (setCoupling 1 (predictIter n).A)ᵀ + Qmat = _
    rw [hA, setCoupling_Amat]
  refine ⟨by rw [hx], by rw [hx], by rw [hx], ?_, ?_, hstep⟩
  · rw [hstep, hP, Abf, trace_bf, trace_bf]
    linarith
  · show (setCoupling 1 (predictIter n).A).mulVec (predictIter n).x = _
    rw [hA, setCoupling_Amat]

/-! ## Claim C8: velocity smoothing -/

lemma velocityUpdate_eq (t v : List (Fin 3 → ℚ)) (dt : ℚ) (w : ℕ) :
    velocityUpdate t v dt w =
      v ++ [vmean ((v ++ [instVel t dt]).drop (v.length + 1 - w))] := by
  simp [velocityUpdate, List.take_left']

lemma vmean_const (l : List (Fin 3 → ℚ)) (c : Fin 3 → ℚ) (hne : l ≠ [])
    (h : ∀ v ∈ l, v = c) : vmean l = c := by
  funext i
  have hmap : l.map (fun v => v i) = List.replicate l.length (c i) := by
    rw [List.eq_replicate_iff]
    refine ⟨by simp, ?_⟩
    intro x hx
    obtain ⟨v, hv, rfl⟩ := List.mem_map.mp hx
    rw [h v hv]
  have hlen : (l.length : ℚ) ≠ 0 :=
    Nat.cast_ne_zero.mpr fun h0 => hne (List.length_eq_zero.mp h0)
  rw [vmean]
  simp only [hmap, List.sum_replicate, nsmul_eq_mul]
  field_simp

lemma arithTraj_length (step : Fin 3 → ℚ) (m : ℕ) :
    (arithTraj step m).length = m + 1 := by
  rw [arithTraj, List.length_map, List.length_range]

lemma arithTraj_getD (step : Fin 3 → ℚ) (m k : ℕ) (hk : k ≤ m) :
    (arithTraj step m).getD k (fun _ => 0) = fun i => (k : ℚ) * step i := by
  rw [List.getD_eq_getElem _ _ (by rw [arithTraj_length]; omega)]
  simp only [arithTraj, List.getElem_map, List.getElem_range]

lemma instVel_arithTraj (step : Fin 3 → ℚ) (n : ℕ) :
    instVel (arithTraj step (n + 1)) (1 / 10) =
      fun i => 36 * step i := by
  funext i
  rw [instVel, arithTraj_length]
  have h1 : n + 1 + 1 - 1 = n + 1 := by omega
  have h2 : n + 1 + 1 - 2 = n := by omega
  rw [h1, h2, arithTraj_getD step (n + 1) (n + 1) (le_refl _),
    arithTraj_getD step (n + 1) n (by omega)]
  push_cast
  ring

lemma velIter_const (step : Fin 3 → ℚ) (n : ℕ) :
    (velIter step n).length = n ∧
    ∀ v ∈ velIter step n, v = fun i => 36 * step i := by
  induction n with
  | zero => exact ⟨rfl, by simp [velIter]⟩
  | succ n ih =>
    obtain ⟨hlen, hall⟩ := ih
    have hstep : velIter step (n + 1) =
        velIter step n ++ [vmean ((velIter step n ++
          [instVel (arithTraj step (n + 1)) (1 / 10)]).drop
          ((velIter step n).length + 1 - 5))] := by
      rw [velIter, velocityUpdate_eq]
    constructor
    · rw [hstep]
      simp [hlen]
    · intro v hv
      rw [hstep] at hv
      rcases List.mem_append.mp hv with hv | hv
      · exact hall v hv
      · rw [List.mem_singleton.mp hv]
        apply vmean_const
        · intro hcon
          have hL := congrArg List.length hcon
          rw [List.length_drop, List.length_append, hlen,
            List.length_singleton] at hL
          simp only [List.length_nil] at hL
          omega
        · intro u hu
          have hu' := List.mem_of_mem_drop hu
          rcases List.mem_append.mp hu' with hu' | hu'
          · exact hall u hu'
          · rw [List.mem_singleton.mp hu', instVel_arithTraj]

/-- C8: one velocity-smoothing step appends the instantaneous velocity
3.6 * (latest - previous) / dt and then overwrites that last entry with
the mean of the trailing window of at most w entries; consequently, over
a position history increasing by a fixed step every frame at dt = 0.1,
once 5 velocity samples exist the reported (last) velocity equals
3.6 * step / 0.1 within 1e-6 (exactly, in rational arithmetic). -/
theorem velocity_smoothing (step : Fin 3 → ℚ) (n : ℕ) (h : 5 ≤ n) :
    (∀ (t v : List (Fin 3 → ℚ)) (dt : ℚ) (w : ℕ),
      velocityUpdate t v dt w =
        v ++ [vmean ((v ++ [instVel t dt]).drop (v.length + 1 - w))]) ∧
    ∀ i, |(velIter step n).getD (n - 1) (fun _ => 0) i -
      18 / 5 * step i / (1 / 10)| ≤ 1 / 1000000 := by
  refine ⟨velocityUpdate_eq, ?_⟩
  intro i
  obtain ⟨hlen, hall⟩ := velIter_const step n
  have hbound : n - 1 < (velIter step n).length := by
    rw [hlen]; omega
  rw [List.getD_eq_getElem _ _ hbound]
  have hval := hall _ (List.getElem_mem hbound)
  rw [hval]
  have h0 : (36 : ℚ) * step i - 18 / 5 * step i / (1 / 10) = 0 := by ring
  rw [h0]
  norm_num

/-- Witness for velocity_smoothing at step = (1,1,1) and n = 5. -/
theorem velocity_smoothing_witness :
    5 ≤ 5 ∧
    ((∀ (t v : List (Fin 3 → ℚ)) (dt : ℚ) (w : ℕ),
      velocityUpdate t v dt w =
        v ++ [vmean ((v ++ [instVel t dt]).drop (v.length + 1 - w))]) ∧
    ∀ i, |(velIter (fun _ => 1) 5).getD (5 - 1) (fun _ => 0) i -
      18 / 5 * (fun _ => (1 : ℚ)) i / (1 / 10)| ≤ 1 / 1000000) :=
  ⟨by norm_num, velocity_smoothing (fun _ => 1) 5 (by norm_num)⟩

/-! ## Claim C1: scale recovery displacement filter and median -/

lemma filter_map_eq {α β : Type} (f : α → β) (p : β → Bool) (l : List α) :
    (l.map f).filter p = (l.filter fun a => p (f a)).map f := by
  induction l with
  | nil => rfl
  | cons a as ih =>
    by_cases h : p (f a) = true
    · simp [List.filter_cons, h, ih]
    · rw [Bool.not_eq_true] at h
      simp [List.filter_cons, h, ih]

lemma npMedian_singleton (x : ℝ) : npMedian [x] = x := by
  simp [npMedian, sortAsc, insertAsc]

lemma npMedian_pair (x y : ℝ) (h : x ≤ y) :
    npMedian [x, y] = (x + y) / 2 := by
  rw [npMedian]
  simp only [sortAsc, List.foldr, insertAsc, if_pos h]
  norm_num

/-- C1 amended: in the scale-recovery step the per-point planar
displacement d is discarded exactly when it is not below
50 units/s * 0.1 s — the source hard-codes the nominal dt 0.1 (threshold
5 units) instead of the frame's actual dt — equivalently, the kept
displacements are exactly the square roots of the squared planar
displacements below 25; and the scale estimate is the median of the
remaining displacements. -/
theorem scale_median_of_kept_displacements (tri : Vec2 → Vec2 → Vec4)
    (prevWorld : List Vec4) (lNext rNext : List Vec2)
    (lStat rStat : List Bool) :
    ((disps tri prevWorld lNext rNext lStat rStat).filter
        (fun d => decide (d < 50 * (1 / 10 : ℝ))) =
      ((dispSqs tri prevWorld lNext rNext lStat rStat).filter
        (fun s => decide (s < 25))).map fun (s : ℚ) => Real.sqrt (s : ℝ)) ∧
    ((disps tri prevWorld lNext rNext lStat rStat).filter
        (fun d => decide (d < 50 * (1 / 10 : ℝ))) =
      specVelocityFilter (1 / 10)
        (disps tri prevWorld lNext rNext lStat rStat)) ∧
    scaleEstimate tri prevWorld lNext rNext lStat rStat =
      npMedian ((disps tri prevWorld lNext rNext lStat rStat).filter
        fun d => decide (d < 50 * (1 / 10 : ℝ))) := by
  refine ⟨?_, ?_, rfl⟩
  · rw [disps, filter_map_eq]
    congr 1
    apply List.filter_congr
    intro s _
    rw [decide_eq_decide]
    rw [show (50 * (1 / 10 : ℝ)) = 5 by norm_num,
      Real.sqrt_lt' (by norm_num)]
    constructor
    · intro h
      exact_mod_cast h
    · intro h
      exact_mod_cast h
  · rw [specVelocityFilter]
    apply List.filter_congr
    intro d _
    rw [decide_eq_decide]
    norm_num

/-- C1 as stated is false: the displacement filter threshold is not
50 units/s times the frame's dt. At a frame with dt = 0.2 s and surviving
planar displacements [3, 7], the claim requires both to be kept
(threshold 10) and the scale to be their median 5, but the source keeps
only [3] (hard-coded threshold 50 * 0.1 = 5) and returns scale 3. -/
theorem scale_threshold_counterexample :
    ¬ (scaleEstimate triC1 prevWC1 nextC1 nextC1 [true, true] [true, true] =
      npMedian (specVelocityFilter (1 / 5)
        (disps triC1 prevWC1 nextC1 nextC1 [true, true] [true, true]))) := by
  have hdsq : dispSqs triC1 prevWC1 nextC1 nextC1 [true, true] [true, true]
      = [9, 49] := by
    norm_num [dispSqs, trackedPairs, planarDispSq, triangulated, applyMask,
      keepMask, inRange, homNormalize, normSq4, triC1, prevWC1, nextC1]
  have hs9 : Real.sqrt ((9 : ℚ) : ℝ) = 3 := by
    rw [show (((9 : ℚ) : ℝ)) = (3 : ℝ) ^ 2 by norm_num,
      Real.sqrt_sq (by norm_num : (0 : ℝ) ≤ 3)]
  have hs49 : Real.sqrt ((49 : ℚ) : ℝ) = 7 := by
    rw [show (((49 : ℚ) : ℝ)) = (7 : ℝ) ^ 2 by norm_num,
      Real.sqrt_sq (by norm_num : (0 : ℝ) ≤ 7)]
  have hdisps : disps triC1 prevWC1 nextC1 nextC1 [true, true] [true, true]
      = [3, 7] := by
    rw [disps, hdsq]
    simp only [List.map_cons, List.map_nil, hs9, hs49]
  have hlhs : scaleEstimate triC1 prevWC1 nextC1 nextC1 [true, true]
      [true, true] = 3 := by
    rw [scaleEstimate, hdisps]
    rw [show ((50 : ℝ) * (1 / 10)) = 5 by norm_num]
    simp only [List.filter_cons, List.filter_nil,
      decide_eq_true (by norm_num : (3 : ℝ) < 5),
      decide_eq_false (by norm_num : ¬ (7 : ℝ) < 5), if_true,
      Bool.false_eq_true, if_false]
    exact npMedian_singleton 3
  have hrhs : npMedian (specVelocityFilter (1 / 5)
      (disps triC1 prevWC1 nextC1 nextC1 [true, true] [true, true])) = 5
      := by
    rw [specVelocityFilter, hdisps]
    simp only [List.filter_cons, List.filter_nil,
      decide_eq_true (by norm_num : (3 : ℝ) < 50 * ((1 / 5 : ℚ) : ℝ)),
      decide_eq_true (by norm_num : (7 : ℝ) < 50 * ((1 / 5 : ℚ) : ℝ)),
      if_true]
    rw [npMedian_pair 3 7 (by norm_num)]
    norm_num
  intro h
  rw [hlhs, hrhs] at h
  norm_num at h

end GoPro
